import Mathlib

/-!
Verification of the batch-processing driver `dials.stills_process`
(`src/command_line/stills_process.py`).

The development shallowly embeds the orchestration core of the script:
unit tagging (`Script.run`), per-unit output path resolution and the
four-stage pipeline with per-stage exception isolation
(`Processor.process_datablock`), the spot-finding z-normalization
(`Processor.find_spots`), the pass-through refinement stage
(`Processor.refine`), reference-observation hygiene
(`Processor.process_reference`), the integration variance checks
(`Processor.integrate`), the MPI rank partition (`Script.run`), and the
per-unit deep copy of the run configuration (`do_work`).

External scientific collaborators (spot detection, the indexer, the
profile model / predictor / integrator) are opaque function parameters,
exactly as the script treats them. Python floats appearing in the
variance checks are embedded as rationals; the checks only compare and
multiply, so this is faithful. Python exceptions are embedded as an
explicit error type (`PyErr`) carried in `Except`.
-/
namespace StillsProcess

/-! ### Decimal rendering of integers (Python `%d` / `%05d` formatting) -/


/-- Little-endian base-10 digits, computed with explicit fuel so the
kernel can evaluate it. `digitsLEAux fuel n` is the digit list of `n`
provided `n ≤ fuel`. -/
def digitsLEAux : Nat → Nat → List Nat
  | 0, _ => []
  | _ + 1, 0 => []
  | fuel + 1, n + 1 => ((n + 1) % 10) :: digitsLEAux fuel ((n + 1) / 10)

/-- Little-endian base-10 digits of `n` (empty for 0). -/
def digitsLE (n : Nat) : List Nat := digitsLEAux n n

/-- The ASCII character of a decimal digit. -/
def digitChar10 (d : Nat) : Char := Char.ofNat (48 + d)

/-- The character list of the usual decimal rendering of `n`. -/
def natReprChars (n : Nat) : List Char :=
  if n = 0 then ['0'] else ((digitsLE n).map digitChar10).reverse

/-- Decimal rendering of `n`, as Python `"%d" % n` produces it. -/
def strOfNat (n : Nat) : String := ⟨natReprChars n⟩

/-- Zero-padded five-wide decimal rendering of `n`, as Python
`"%05d" % n` produces it. -/
def pad5 (n : Nat) : String :=
  ⟨List.replicate (5 - (natReprChars n).length) '0' ++ natReprChars n⟩

/-- Value of a little-endian digit list. -/
def ofDigitsLE (l : List Nat) : Nat := l.foldr (fun d a => 10 * a + d) 0

/-- Parse a big-endian character list as a decimal number, ignoring
leading zeros. -/
def parseDecimal (cs : List Char) : Nat :=
  cs.foldl (fun a c => 10 * a + (c.toNat - 48)) 0

/-! ### Unit tagging (`Script.run`, lines 229–260)

In both loading modes the script collects a list of basenames and a
parallel list of indices, then tags each unit with the bare basename if
that basename occurs once in the whole batch, and with
`basename_%05d % index` otherwise.  In deferred mode the index is the
unit's position in the batch (`enumerate(basenames)`); in pre-import
mode it is the frame's index **within its imageset**
(`for i in xrange(len(imageset))`). -/


/-- One tag: `basename` if unique in the batch, else `basename_%05d % i`. -/
def mkTag (all : List String) (i : Nat) (basename : String) : String :=
  if 1 < all.count basename then basename ++ "_" ++ pad5 i else basename

/-- Tags of a suffix of the basename list, starting at position `k`. -/
def tagsFrom (all : List String) : Nat → List String → List String
  | _, [] => []
  | k, b :: bs => mkTag all k b :: tagsFrom all (k + 1) bs

/-- Deferred-mode tagging (`Script.run`, lines 254–260): the index is the
position in the batch. -/
def tagsDeferred (basenames : List String) : List String :=
  tagsFrom basenames 0 basenames

/-- Pre-import-mode tagging (`Script.run`, lines 229–245): the units are
the frames of each imageset in order, and the index paired with each
frame is its position within its own imageset. -/
def tagsPreImport (containers : List (List String)) : List String :=
  let basenames := containers.flatten
  let pairs := (containers.map List.enum).flatten
  pairs.map (fun p => mkTag basenames p.1 p.2)

/-! ### Python exceptions -/


/-- The exception kinds the script can raise or catch.  `invalidInput`
embeds `libtbx.utils.Sorry` (the distinct invalid-input condition),
`abort` embeds `libtbx.utils.Abort`, `assertionFailed` a failed
`assert`, `typeError` a `TypeError`, and `exc` any other exception
coming out of an external collaborator. -/
inductive PyErr
  | invalidInput (msg : String)
  | abort (msg : String)
  | assertionFailed
  | typeError (msg : String)
  | exc (msg : String)
deriving DecidableEq

/-- `str(e)`: the text of the exception. -/
def PyErr.message : PyErr → String
  | .invalidInput m => m
  | .abort m => m
  | .assertionFailed => "AssertionError"
  | .typeError m => m
  | .exc m => m

/-! ### Output filename templating (`Processor.process_datablock`,
lines 317–327, and helpers)

A template is applied by substituting `"idx-" + tag` for its `%s`
placeholder and joining under the output directory.  The first three
templates are guarded with `is not None`; `refined_experiments_filename`
and `integrated_filename` are tested with `"%s" in x` directly, which
raises a `TypeError` when the value is `None`. -/


/-- Find the first occurrence of the two-character pattern `'%'`
followed by `pat`; return the characters before and after it. -/
def findSub (pat : Char) : List Char → Option (List Char × List Char)
  | [] => none
  | [_] => none
  | c1 :: c2 :: rest =>
    if c1 = '%' ∧ c2 = pat then some ([], rest)
    else
      match findSub pat (c2 :: rest) with
      | none => none
      | some (pre, post) => some (c1 :: pre, post)

/-- Python `"%s" in f`. -/
def containsPct (f : String) : Bool := (findSub 's' f.data).isSome

/-- Substitute the first `%`-`pat` placeholder with `r` (Python
`%`-formatting for the single-placeholder templates used here). -/
def substOne (pat : Char) (f r : String) : String :=
  match findSub pat f.data with
  | none => f
  | some (pre, post) => ⟨pre ++ r.data ++ post⟩

/-- Python `template % ("idx-" + tag)` for a single-`%s` template. -/
def substPct (f r : String) : String := substOne 's' f r

/-- Python `template % (e_number, event_timestamp)` for the
integration-pickle template. -/
def substPickle (t : String) (e : Nat) (ts : String) : String :=
  substOne 's' (substOne 'd' t (strOfNat e)) ts

/-- `os.path.join` restricted to the shapes used by the script. -/
def pathJoin (dir f : String) : String :=
  if f.data.head? = some '/' then f
  else if dir.data = [] then f
  else if dir.data.getLast? = some '/' then dir ++ f
  else dir ++ "/" ++ f

/-- The `output` phil scope fields used by the per-unit processor. -/
structure OutputParams where
  output_dir : String
  datablock_filename : Option String
  strong_filename : Option String
  indexed_filename : Option String
  refined_experiments_filename : Option String
  integrated_filename : Option String
  integration_pickle : Option String
deriving DecidableEq

/-- Python truthiness of an optional string (`if x:`). -/
def truthy : Option String → Bool
  | none => false
  | some s => !(s == "")

/-- One guarded template rewrite:
`if x is not None and "%s" in x: x = os.path.join(output_dir, x % ("idx-" + s))`. -/
def resolveGuarded (dir tag : String) (t : Option String) : Option String :=
  match t with
  | none => none
  | some f =>
    if containsPct f then some (pathJoin dir (substPct f ("idx-" ++ tag))) else some f

/-- Message of the `TypeError` raised by `"%s" in None`. -/
def typeErrorMsg : String := "TypeError: argument of type NoneType is not iterable"

/-- The template-resolution prologue of `Processor.process_datablock`
(lines 317–327).  Returns the parameters as mutated so far together with
the error raised, if any.  `datablock_filename`, `strong_filename` and
`indexed_filename` are `None`-guarded; `refined_experiments_filename`
and `integrated_filename` are not, so a `None` value raises a
`TypeError` mid-way. -/
def resolvePaths (p : OutputParams) (tag : String) : OutputParams × Option String :=
  let p1 := { p with datablock_filename := resolveGuarded p.output_dir tag p.datablock_filename }
  let p2 := { p1 with strong_filename := resolveGuarded p.output_dir tag p1.strong_filename }
  let p3 := { p2 with indexed_filename := resolveGuarded p.output_dir tag p2.indexed_filename }
  match p3.refined_experiments_filename with
  | none => (p3, some typeErrorMsg)
  | some f =>
    let f4 := if containsPct f then pathJoin p.output_dir (substPct f ("idx-" ++ tag)) else f
    let p4 := { p3 with refined_experiments_filename := some f4 }
    match p4.integrated_filename with
    | none => (p4, some typeErrorMsg)
    | some g =>
      let g5 := if containsPct g then pathJoin p.output_dir (substPct g ("idx-" ++ tag)) else g
      let p5 := { p4 with integrated_filename := some g5 }
      (p5, none)

/-! ### Pipeline data model -/


/-- The pipeline stages, in order. -/
inductive Stage
  | findSpots
  | index
  | refine
  | integrate
deriving DecidableEq

/-- The prefix of the diagnostic line printed when a stage fails
(`Processor.process_datablock`, lines 335–355). -/
def stageMsg : Stage → String
  | .findSpots => "Error spotfinding"
  | .index => "Couldn\x27t index"
  | .refine => "Error refining"
  | .integrate => "Error integrating"

/-- One spot-finder observation: centroid (`xyzobs.px.value`) and
bounding box (`bbox`). -/
structure SpotObs where
  x : Rat
  y : Rat
  z : Rat
  b0 : Int
  b1 : Int
  b2 : Int
  b3 : Int
  b4 : Int
  b5 : Int
deriving DecidableEq

/-- The z-degeneration applied by `Processor.find_spots` (lines
369–375): centroid z becomes 0 and the bounding box z-extent becomes
`[0, 1)`. -/
def resetZ (o : SpotObs) : SpotObs := { o with z := 0, b4 := 0, b5 := 1 }

/-- One indexed reference observation (the columns `process_reference`
reads). -/
structure RefObs where
  flagIndexed : Bool
  miller_index : Int × Int × Int
  id : Int
deriving DecidableEq

/-- A reference reflection table: column presence plus rows. -/
structure RefTable where
  hasMillerIndex : Bool
  hasId : Bool
  obs : List RefObs
deriving DecidableEq

/-- One integrated reflection: the variance columns and flags read in
`Processor.integrate`. -/
structure Refl where
  prfVar : Rat
  sumVar : Rat
  bgVar : Rat
  flagIntegrated : Bool
  flagIntegratedSum : Bool
  flagBadPixel : Bool
deriving DecidableEq

/-- An integrated reflection table: presence of the columns tested by
`Processor.integrate` plus rows. -/
structure ReflTable where
  hasPrfVariance : Bool
  hasPrfValue : Bool
  hasSumValue : Bool
  hasBgValue : Bool
  refls : List Refl
deriving DecidableEq

/-- The phil parameters the orchestration core reads and mutates. -/
structure PhilParams where
  output : OutputParams
  scan_varying : Bool
  detector_gain : Rat
deriving DecidableEq

/-! ### `Processor.find_spots` (lines 357–384)

Spot detection itself (`flex.reflection_table.from_observations`) is an
external collaborator passed as a function; the method then resets the
z-coordinates and optionally writes the strong-spot file. -/
def find_spots {DB : Type} (strong_filename : Option String)
    (fromObservations : DB → Except PyErr (List SpotObs)) (datablock : DB) :
    Except PyErr (List SpotObs × List String) :=
  match fromObservations datablock with
  | .error e => .error e
  | .ok observed =>
    let observed := observed.map resetZ
    let writes := if truthy strong_filename then [strong_filename.getD ("")] else []
    .ok (observed, writes)

/-! ### `Processor.refine` (lines 416–442)

For stills the stage is a pass-through: it prints a skip message,
optionally dumps the experiment models, and returns them unchanged. -/
def refine {Expt Idx : Type} (refined_experiments_filename : Option String)
    (experiments : Expt) (centroids : Idx) : Expt × List String :=
  let writes :=
    if truthy refined_experiments_filename then [refined_experiments_filename.getD ("")] else []
  (experiments, writes)

/-! ### `Processor.process_reference` (lines 598–633) -/
def emptyRefMsg : String :=
  "Invalid input for reference reflections. Expected > 0 indexed spots, got 0"

def invalidIdMsg (n : Nat) : String :=
  strOfNat n ++ " reference spots have an invalid experiment id"

/-- The body of `process_reference` for a non-`None` reference table:
assert the `miller_index` and `id` columns, drop unindexed rows, fail if
nothing is left, drop rows with miller index (0,0,0), and fail if any
remaining row has a negative experiment id.  Returns the cleaned table
and the dropped (`rubbish`) rows. -/
def processReferenceTable (reference : RefTable) : Except PyErr (RefTable × List RefObs) :=
  if !reference.hasMillerIndex then .error .assertionFailed
  else if !reference.hasId then .error .assertionFailed
  else
    let rubbish := reference.obs.filter (fun o => !o.flagIndexed)
    let ref1 := { reference with obs := reference.obs.filter (fun o => o.flagIndexed) }
    if ref1.obs.length = 0 then .error (.invalidInput emptyRefMsg)
    else
      let zeroSel := ref1.obs.filter (fun o => decide (o.miller_index = (0, 0, 0)))
      let rubbish2 := rubbish ++ zeroSel
      let ref2 := { ref1 with obs := ref1.obs.filter (fun o => !(decide (o.miller_index = (0, 0, 0)))) }
      let badId := (ref2.obs.filter (fun o => decide (o.id < 0))).length
      if 0 < badId then .error (.invalidInput (invalidIdMsg badId))
      else .ok (ref2, rubbish2)

def process_reference (reference : Option RefTable) :
    Except PyErr (Option RefTable × Option (List RefObs)) :=
  match reference with
  | none => .ok (none, none)
  | some t =>
    match processReferenceTable t with
    | .error e => .error e
    | .ok (r, rub) => .ok (some r, some rub)

/-! ### The variance sanity checks of `Processor.integrate`
(lines 499–515) -/
def negVarMsg : String := "Found negative variances"

/-- Detector-gain correction of the summation intensity variance. -/
def sumGain (gain : Rat) (r : Refl) : Refl := { r with sumVar := r.sumVar * gain }

/-- Detector-gain correction of the background summation variance. -/
def bgGain (gain : Rat) (r : Refl) : Refl := { r with bgVar := r.bgVar * gain }

/-- Lines 499–515 of `Processor.integrate`: raise on any non-positive
profile variance (if the profile column is present), raise on any
non-positive summation variance then apply the gain (if the summation
column is present), raise on any negative background variance, filter
out zero background variances with a notice, then apply the gain (if the
background column is present). -/
def varianceChecks (gain : Rat) (t : ReflTable) : Except PyErr (ReflTable × List String) :=
  if t.hasPrfValue && t.refls.any (fun r => decide (r.prfVar ≤ 0)) then
    .error (.invalidInput negVarMsg)
  else if t.hasSumValue && t.refls.any (fun r => decide (r.sumVar ≤ 0)) then
    .error (.invalidInput negVarMsg)
  else
    let t1 := if t.hasSumValue then { t with refls := t.refls.map (sumGain gain) } else t
    if t1.hasBgValue && t1.refls.any (fun r => decide (r.bgVar < 0)) then
      .error (.invalidInput negVarMsg)
    else
      let zc := (t1.refls.filter (fun r => decide (r.bgVar = 0))).length
      let t2 :=
        if t1.hasBgValue && decide (0 < zc) then
          { t1 with refls := t1.refls.filter (fun r => decide (0 < r.bgVar)) }
        else t1
      let notices :=
        if t1.hasBgValue && decide (0 < zc) then
          ["Filtering " ++ strOfNat zc ++ " reflections with zero background variance"]
        else []
      let t3 := if t2.hasBgValue then { t2 with refls := t2.refls.map (bgGain gain) } else t2
      .ok (t3, notices)

/-! ### `Processor.write_integration_pickles` (lines 544–596) -/


/-- One integration pickle is written per experiment, named by the
experiment index and the unit tag, unless the template is `None`. -/
def write_integration_pickles (integration_pickle : Option String)
    (output_dir : String) (tag : String) (numExperiments : Nat) : List String :=
  match integration_pickle with
  | none => []
  | some template =>
    (List.range numExperiments).map (fun e => pathJoin output_dir (substPickle template e tag))

/-! ### `Processor.integrate` (lines 444–542)

Profile modelling, prediction, matching and the integrator itself are
one external collaborator (`runIntegration`); the method cleans the
reference, runs it, selects successfully integrated reflections, drops
bad-pixel reflections, runs the variance checks, and writes the
integrated file and the integration pickles. -/
def integrate {Expt : Type} (params : PhilParams) (tag : String)
    (numExperiments : Expt → Nat)
    (runIntegration : Expt → RefTable → ReflTable)
    (experiments : Expt) (indexed : RefTable) :
    Except PyErr (ReflTable × List String × List String) :=
  match process_reference (some indexed) with
  | .error e => .error e
  | .ok (cleaned, _rubbish) =>
    let indexedRef := cleaned.getD { hasMillerIndex := true, hasId := true, obs := [] }
    let integrated := runIntegration experiments indexedRef
    let sel :=
      if integrated.hasPrfVariance then integrated.refls.filter (fun r => r.flagIntegrated)
      else integrated.refls.filter (fun r => r.flagIntegratedSum)
    let integrated1 := { integrated with refls := sel }
    let lenAll := integrated1.refls.length
    let integrated2 := { integrated1 with refls := integrated1.refls.filter (fun r => !r.flagBadPixel) }
    let badPixelNotice := "Filtering " ++ strOfNat (lenAll - integrated2.refls.length) ++
      " reflections with at least one bad foreground pixel out of " ++ strOfNat lenAll
    match varianceChecks params.detector_gain integrated2 with
    | .error e => .error e
    | .ok (integrated3, notices) =>
      let writes :=
        (if truthy params.output.integrated_filename then [params.output.integrated_filename.getD ("")] else [])
          ++ write_integration_pickles params.output.integration_pickle
              params.output.output_dir tag (numExperiments experiments)
      .ok (integrated3, writes, badPixelNotice :: notices)

/-! ### `Processor.process_datablock` (lines 313–355)

The four stage methods are dynamic (`self.…`), so the embedding takes
them as a record of functions; each is called inside its own
`try/except` which prints one diagnostic line and returns.  The
template-resolution prologue runs before the first `try`, so its
`TypeError` is not caught. -/


/-- The four stage methods of a `Processor`. -/
structure StageFns (DB Obs Expt Idx Intg : Type) where
  find_spots : DB → Except PyErr (Obs × List String)
  index : DB → Obs → Except PyErr ((Expt × Idx) × List String)
  refine : Expt → Idx → Except PyErr (Expt × List String)
  integrate : Expt → Idx → Except PyErr (Intg × List String)

/-- The observable outcome of processing one unit: which stages ran,
the per-stage diagnostic lines printed, the files written, and the
integrated result if the pipeline completed. -/
structure ProcResult (Intg : Type) where
  ran : List Stage
  errLog : List String
  writes : List String
  outcome : Option Intg
deriving DecidableEq

def process_datablock {DB Obs Expt Idx Intg : Type}
    (fns : StageFns DB Obs Expt Idx Intg) (p : OutputParams) (tag : String)
    (datablock : DB) : Except PyErr (ProcResult Intg) :=
  match resolvePaths p tag with
  | (_, some e) => .error (.typeError e)
  | (p1, none) =>
    let dbWrites := if truthy p1.datablock_filename then [p1.datablock_filename.getD ("")] else []
    match fns.find_spots datablock with
    | .error e =>
      .ok ⟨[.findSpots], [stageMsg .findSpots ++ " " ++ tag ++ " " ++ e.message], dbWrites, none⟩
    | .ok (observed, w1) =>
      match fns.index datablock observed with
      | .error e =>
        .ok ⟨[.findSpots, .index], [stageMsg .index ++ " " ++ tag ++ " " ++ e.message],
          dbWrites ++ w1, none⟩
      | .ok ((experiments, indexed), w2) =>
        match fns.refine experiments indexed with
        | .error e =>
          .ok ⟨[.findSpots, .index, .refine],
            [stageMsg .refine ++ " " ++ tag ++ " " ++ e.message], dbWrites ++ w1 ++ w2, none⟩
        | .ok (experiments2, w3) =>
          match fns.integrate experiments2 indexed with
          | .error e =>
            .ok ⟨[.findSpots, .index, .refine, .integrate],
              [stageMsg .integrate ++ " " ++ tag ++ " " ++ e.message],
              dbWrites ++ w1 ++ w2 ++ w3, none⟩
          | .ok (integrated, w4) =>
            .ok ⟨[.findSpots, .index, .refine, .integrate], [],
              dbWrites ++ w1 ++ w2 ++ w3 ++ w4, some integrated⟩

/-- The scheduler body: every `(tag, datablock)` pair is handed to the
per-unit processor. -/
def runBatch {DB Obs Expt Idx Intg : Type} (fns : StageFns DB Obs Expt Idx Intg)
    (p : OutputParams) (items : List (String × DB)) :
    List (Except PyErr (ProcResult Intg)) :=
  items.map (fun it => process_datablock fns p it.1 it.2)

/-! ### The MPI rank partition (`Script.run`, lines 287–295) -/


/-- The `(i, item)` pairs a rank processes:
`for i, item in enumerate(iterable): if (i+rank)%size == 0: do_work(item)`. -/
def mpiProcessed {α : Type} (rank size : Nat) (iterable : List α) : List (Nat × α) :=
  iterable.enum.filter (fun p => (p.1 + rank) % size == 0)

/-- The positions a rank is assigned out of `n` units. -/
def mpiAssignedPositions (rank size n : Nat) : List Nat :=
  (List.range n).filter (fun i => (i + rank) % size == 0)

/-! ### Per-unit deep copies of the configuration (`do_work`, lines
247–251 and 263–282; `Processor.index`, lines 396–399)

Python objects are embedded as heap cells (a list of `PhilParams`
indexed by allocation order).  Cell 0 holds the scheduler's shared
`params` object; `copy.deepcopy(params)` allocates a fresh cell; the
template-resolution prologue mutates the unit's own cell in place, and
`Processor.index` allocates a second copy and disables scan-varying
refinement on it. -/
abbrev Heap := List PhilParams

def defaultPhil : PhilParams :=
  { output := { output_dir := "", datablock_filename := none, strong_filename := none,
                indexed_filename := none, refined_experiments_filename := none,
                integrated_filename := none, integration_pickle := none },
    scan_varying := false, detector_gain := 1 }

/-- `copy.deepcopy`: allocate a fresh cell with the given value. -/
def allocCfg (h : Heap) (c : PhilParams) : Heap × Nat := (h ++ [c], h.length)

def readCfg (h : Heap) (a : Nat) : PhilParams := h.getD a defaultPhil

def writeCfg (h : Heap) (a : Nat) (c : PhilParams) : Heap := h.set a c

/-- The in-place parameter mutations performed while processing one
unit whose configuration copy lives at address `a`: the filename
templates are rewritten in place, and `Processor.index` deep-copies the
parameters again and force-disables scan-varying refinement on that
second copy. -/
def processOneUnit (tag : String) (h : Heap) (a : Nat) : Heap :=
  let c := readCfg h a
  let h1 := writeCfg h a { c with output := (resolvePaths c.output tag).1 }
  let copied := allocCfg h1 (readCfg h1 a)
  let h2 := copied.1
  let b := copied.2
  writeCfg h2 b { readCfg h2 b with scan_varying := false }

/-- The scheduler: for each unit, `Processor(copy.deepcopy(params))`
reads the shared cell 0 and copies it, then the unit is processed. -/
def runBatchHeap (master : PhilParams) (tags : List String) : Heap :=
  tags.foldl
    (fun h tag =>
      let copied := allocCfg h (readCfg h 0)
      processOneUnit tag copied.1 copied.2)
    [master]

/-- The final value of a unit's own configuration copy: a pure function
of the master configuration and the unit's tag alone. -/
def unitParams (master : PhilParams) (tag : String) : PhilParams :=
  { master with output := (resolvePaths master.output tag).1 }

/-- The final value of the second copy made by `Processor.index`. -/
def indexParams (master : PhilParams) (tag : String) : PhilParams :=
  { unitParams master tag with scan_varying := false }

/-- Stage functions used to exercise `c2_stage_isolation`: indexing
fails, the other stages succeed. -/
def c2fns : StageFns Nat Nat Nat Nat Nat where
  find_spots := fun _ => .ok (0, [])
  index := fun _ _ => .error (.exc ("boom"))
  refine := fun a _ => .ok (a, [])
  integrate := fun _ _ => .ok (0, [])

/-- The default output templates of the phil scope. -/
def defaultOutput : OutputParams where
  output_dir := "."
  datablock_filename := some ("%s_datablock.json")
  strong_filename := some ("%s_strong.pickle")
  indexed_filename := some ("%s_indexed.pickle")
  refined_experiments_filename := some ("%s_refined_experiments.json")
  integrated_filename := some ("%s_integrated.pickle")
  integration_pickle := some ("int-%d-%s.pickle")

/-- A table with a non-positive profile variance. -/
def c3badTable : ReflTable :=
  { hasPrfVariance := true, hasPrfValue := true, hasSumValue := true, hasBgValue := true,
    refls := [{ prfVar := -1, sumVar := 1, bgVar := 1,
                flagIntegrated := true, flagIntegratedSum := true, flagBadPixel := false }] }

/-- A table whose only blemish is one zero background variance. -/
def c3zeroBgTable : ReflTable :=
  { hasPrfVariance := true, hasPrfValue := true, hasSumValue := true, hasBgValue := true,
    refls := [{ prfVar := 1, sumVar := 1, bgVar := 0,
                flagIntegrated := true, flagIntegratedSum := true, flagBadPixel := false },
              { prfVar := 1, sumVar := 1, bgVar := 2,
                flagIntegrated := true, flagIntegratedSum := true, flagBadPixel := false }] }

/-- The reference table showing C6 false: one valid indexed
observation, plus an unindexed observation with a negative experiment
id. -/
def c6refTable : RefTable :=
  { hasMillerIndex := true, hasId := true,
    obs := [{ flagIndexed := true, miller_index := (1, 1, 1), id := 0 },
            { flagIndexed := false, miller_index := (1, 2, 3), id := -1 }] }

/-- What the hygiene step keeps: the observations flagged indexed whose
miller index is not (0,0,0). -/
def cleanedObs (t : RefTable) : List RefObs :=
  (t.obs.filter (fun o => o.flagIndexed)).filter
    (fun o => !(decide (o.miller_index = (0, 0, 0))))

/-- What the hygiene step discards as rubbish: unindexed observations
followed by the (0,0,0)-miller ones. -/
def rubbishObs (t : RefTable) : List RefObs :=
  t.obs.filter (fun o => !o.flagIndexed) ++
    (t.obs.filter (fun o => o.flagIndexed)).filter
      (fun o => decide (o.miller_index = (0, 0, 0)))

/-- The table `c6refTable` after hygiene. -/
def c6cleanTable : RefTable :=
  { hasMillerIndex := true, hasId := true,
    obs := [{ flagIndexed := true, miller_index := (1, 1, 1), id := 0 }] }

/-- The rubbish produced from `c6refTable`. -/
def c6rubbish : List RefObs :=
  [{ flagIndexed := false, miller_index := (1, 2, 3), id := -1 }]

/-- A table whose only indexed observation has a negative id. -/
def c6badIdTable : RefTable :=
  { hasMillerIndex := true, hasId := true,
    obs := [{ flagIndexed := true, miller_index := (1, 1, 1), id := -2 }] }

/-- A table lacking the miller-index field. -/
def c6noMillerTable : RefTable :=
  { hasMillerIndex := false, hasId := true, obs := [] }

/-- A raw observation with nonzero z data. -/
def c7raw : SpotObs :=
  { x := 1, y := 2, z := 5, b0 := 0, b1 := 3, b2 := 0, b3 := 4, b4 := 7, b5 := 9 }

/-- The run configuration with the refined-experiments template set to
`None` (all other templates at their defaults). -/
def c9params : OutputParams :=
  { defaultOutput with refined_experiments_filename := none }

/-- The run configuration with the integrated template set to `None`. -/
def c9paramsInt : OutputParams :=
  { defaultOutput with integrated_filename := none }

/-- A reference table with a single unindexed observation. -/
def c10table : RefTable :=
  { hasMillerIndex := true, hasId := true,
    obs := [{ flagIndexed := false, miller_index := (1, 1, 1), id := 0 }] }

/-! ## Theorems -/

theorem ofDigitsLE_digitsLEAux : ∀ (fuel n : Nat), n ≤ fuel →
    ofDigitsLE (digitsLEAux fuel n) = n := by
  intro fuel
  induction fuel with
  | zero => intro n hn; interval_cases n; rfl
  | succ fuel ih =>
    intro n hn
    match n with
    | 0 => rfl
    | m + 1 =>
      have hdiv : (m + 1) / 10 ≤ fuel := by
        have := Nat.div_lt_self (Nat.succ_pos m) (by omega : 1 < 10)
        omega
      show ofDigitsLE (((m + 1) % 10) :: digitsLEAux fuel ((m + 1) / 10)) = m + 1
      have := ih ((m + 1) / 10) hdiv
      simp only [ofDigitsLE, List.foldr] at this ⊢
      rw [this]
      omega

theorem digitsLEAux_lt_ten : ∀ (fuel n : Nat) (d : Nat),
    d ∈ digitsLEAux fuel n → d < 10 := by
  intro fuel
  induction fuel with
  | zero => intro n d hd; simp [digitsLEAux] at hd
  | succ fuel ih =>
    intro n d hd
    match n with
    | 0 => simp [digitsLEAux] at hd
    | m + 1 =>
      simp only [digitsLEAux, List.mem_cons] at hd
      rcases hd with h | h
      · omega
      · exact ih _ _ h

theorem digitChar10_toNat (d : Nat) (hd : d < 10) :
    (digitChar10 d).toNat - 48 = d := by
  interval_cases d <;> decide

theorem parseDecimal_digits (l : List Nat) (hl : ∀ d ∈ l, d < 10) :
    List.foldr (fun c a => 10 * a + (c.toNat - 48)) 0 (l.map digitChar10) =
      ofDigitsLE l := by
  induction l with
  | nil => rfl
  | cons d l ih =>
    simp only [List.map, List.foldr, ofDigitsLE] at ih ⊢
    rw [ih (fun x hx => hl x (List.mem_cons_of_mem _ hx)),
      digitChar10_toNat d (hl d (List.mem_cons_self _ _))]

theorem parseDecimal_natReprChars (n : Nat) :
    parseDecimal (natReprChars n) = n := by
  by_cases h0 : n = 0
  · subst h0; rfl
  · simp only [natReprChars, if_neg h0]
    rw [parseDecimal, List.foldl_reverse]
    exact (parseDecimal_digits (digitsLE n) (digitsLEAux_lt_ten n n)).trans
      (ofDigitsLE_digitsLEAux n n le_rfl)

theorem parseDecimal_replicate_zero (k : Nat) (cs : List Char) :
    parseDecimal (List.replicate k '0' ++ cs) = parseDecimal cs := by
  induction k with
  | zero => rfl
  | succ k ih =>
    simp only [List.replicate, List.cons_append, parseDecimal, List.foldl] at ih ⊢
    exact ih

theorem parseDecimal_pad5 (n : Nat) : parseDecimal (pad5 n).data = n := by
  show parseDecimal (List.replicate _ '0' ++ natReprChars n) = n
  rw [parseDecimal_replicate_zero, parseDecimal_natReprChars]

theorem pad5_injective : Function.Injective pad5 := by
  intro m n h
  have : parseDecimal (pad5 m).data = parseDecimal (pad5 n).data := by rw [h]
  rwa [parseDecimal_pad5, parseDecimal_pad5] at this

theorem tagsFrom_length (all : List String) :
    ∀ (k : Nat) (l : List String), (tagsFrom all k l).length = l.length := by
  intro k l
  induction l generalizing k with
  | nil => rfl
  | cons b bs ih => simp [tagsFrom, ih]

theorem tagsFrom_getD (all : List String) :
    ∀ (l : List String) (k i : Nat), i < l.length →
      (tagsFrom all k l).getD i ("") = mkTag all (k + i) (l.getD i ("")) := by
  intro l
  induction l with
  | nil => intro k i hi; simp at hi
  | cons b bs ih =>
    intro k i hi
    match i with
    | 0 => rfl
    | i + 1 =>
      have := ih (k + 1) i (by simpa using hi)
      simpa [tagsFrom, Nat.add_assoc, Nat.add_comm 1 i] using this

theorem tagsDeferred_getD (bs : List String) (i : Nat) (hi : i < bs.length) :
    (tagsDeferred bs).getD i ("") = mkTag bs i (bs.getD i ("")) := by
  simpa using tagsFrom_getD bs bs 0 i hi

/-- Two distinct positions holding the same value force a count of at
least two. -/
theorem one_lt_count_of_getElem_eq {α : Type} [DecidableEq α]
    (l : List α) (i j : Nat) (hi : i < l.length) (hj : j < l.length)
    (hij : i < j) (heq : l[i] = l[j]) : 1 < l.count l[i] := by
  have hcnt := List.count_append l[i] (l.take (i + 1)) (l.drop (i + 1))
  rw [List.take_append_drop] at hcnt
  have hmem₁ : l[i] ∈ l.take (i + 1) := by
    have hlen : i < (l.take (i + 1)).length := by
      simp [List.length_take]; omega
    have hg : (l.take (i + 1))[i] = l[i] := List.getElem_take l
    rw [← hg]
    exact List.getElem_mem hlen
  have hmem₂ : l[i] ∈ l.drop (i + 1) := by
    have hlen : j - (i + 1) < (l.drop (i + 1)).length := by
      simp [List.length_drop]; omega
    have hg : (l.drop (i + 1))[j - (i + 1)]? = l[(i + 1) + (j - (i + 1))]? :=
      List.getElem?_drop l (i + 1) (j - (i + 1))
    rw [show (i + 1) + (j - (i + 1)) = j from by omega,
      List.getElem?_eq_getElem hj] at hg
    rw [heq]
    exact List.getElem?_mem hg
  have h₁ : 0 < (l.take (i + 1)).count l[i] := List.count_pos_iff.mpr hmem₁
  have h₂ : 0 < (l.drop (i + 1)).count l[i] := List.count_pos_iff.mpr hmem₂
  omega

/-! ## Claims -/


/-- C1 is refuted at explicit inputs.  In deferred mode, three paths
with basenames `a_00001`, `a`, `a` yield the tags `a_00001`, `a_00001`,
`a_00002`: a unique bare basename collides with a suffixed tag.  In
pre-import mode, two single-frame containers both named `a` are tagged
with their frame index inside their own container, which is 0 for both,
yielding the identical tags `a_00000` and `a_00000` (also not the batch
positions 0 and 1). -/
theorem c1_counterexample :
    (tagsDeferred ["a_00001", "a", "a"]).length = 3 ∧
    ¬ (tagsDeferred ["a_00001", "a", "a"]).Nodup ∧
    tagsPreImport [["a"], ["a"]] = ["a_00000", "a_00000"] := by
  decide

/-- C1 (amended): in deferred loading mode the Unit Loader produces one
tag per path; a unit whose basename occurs only once is tagged with the
bare basename, and every unit whose basename collides with another's is
tagged with the basename suffixed by the zero-padded 5-digit batch
position, so that any two units sharing a basename receive distinct
tags.  Batch-wide distinctness is not guaranteed (a bare basename can
coincide with a suffixed tag), and in pre-import mode the suffix index
is the frame's index within its own container rather than the batch
position, so same-named containers can collide. -/
theorem c1_amended_tag_rule (bs : List String) (i j : Nat)
    (hi : i < bs.length) (hj : j < bs.length) :
    (tagsDeferred bs).length = bs.length ∧
    (bs.count (bs.getD i ("")) = 1 → (tagsDeferred bs).getD i ("") = bs.getD i ("")) ∧
    (1 < bs.count (bs.getD i ("")) →
      (tagsDeferred bs).getD i ("") = bs.getD i ("") ++ "_" ++ pad5 i) ∧
    (i ≠ j → bs.getD i ("") = bs.getD j ("") →
      (tagsDeferred bs).getD i ("") ≠ (tagsDeferred bs).getD j ("")) := by
  refine ⟨tagsFrom_length bs 0 bs, ?_, ?_, ?_⟩
  · intro hcount
    rw [tagsDeferred_getD bs i hi, mkTag, if_neg (by omega)]
  · intro hcount
    rw [tagsDeferred_getD bs i hi, mkTag, if_pos hcount]
  · intro hne heq
    have hgi : bs.getD i ("") = bs[i] := List.getD_eq_getElem bs ("") hi
    have hgj : bs.getD j ("") = bs[j] := List.getD_eq_getElem bs ("") hj
    have hel : bs[i] = bs[j] := by rw [← hgi, ← hgj, heq]
    have hcount : 1 < bs.count (bs.getD i ("")) := by
      rcases Nat.lt_or_ge i j with hij | hge
      · rw [hgi]
        exact one_lt_count_of_getElem_eq bs i j hi hj hij hel
      · have hji : j < i := by omega
        rw [hgi, hel]
        exact one_lt_count_of_getElem_eq bs j i hj hi hji hel.symm
    have hcj : 1 < bs.count (bs.getD j ("")) := by rwa [heq] at hcount
    rw [tagsDeferred_getD bs i hi, tagsDeferred_getD bs j hj, mkTag, mkTag,
      if_pos hcount, if_pos hcj, ← heq]
    intro habs
    have hdata := congrArg String.data habs
    rw [String.data_append, String.data_append, String.data_append,
      String.data_append] at hdata
    have hpad : (pad5 i).data = (pad5 j).data := List.append_cancel_left hdata
    exact hne (pad5_injective (String.ext hpad))

/-- Witness for `c1_amended_tag_rule` at a concrete input. -/
theorem c1_amended_tag_rule_witness :
    (tagsDeferred ["a", "b", "a"]).getD 0 ("") ≠ (tagsDeferred ["a", "b", "a"]).getD 2 ("") :=
  (c1_amended_tag_rule ["a", "b", "a"] 0 2 (by decide) (by decide)).2.2.2
    (by decide) (by decide)

/-- C2: each of the four pipeline stages is wrapped independently: an
exception raised by a stage is caught at the per-unit boundary,
produces exactly one diagnostic line naming the unit tag, the stage and
the error text, stops that unit's pipeline (no later stage appears in
the stages that ran, and the unit yields no outcome), and every other
unit of the batch is still processed with its own independent result. -/
theorem c2_stage_isolation {DB Obs Expt Idx Intg : Type}
    (fns : StageFns DB Obs Expt Idx Intg) (p : OutputParams) (tag : String)
    (db : DB) (hres : (resolvePaths p tag).2 = none) :
    (∀ e, fns.find_spots db = .error e →
      ∃ ws, process_datablock fns p tag db =
        .ok ⟨[.findSpots], [stageMsg .findSpots ++ " " ++ tag ++ " " ++ e.message], ws, none⟩) ∧
    (∀ obs w1 e, fns.find_spots db = .ok (obs, w1) →
      fns.index db obs = .error e →
      ∃ ws, process_datablock fns p tag db =
        .ok ⟨[.findSpots, .index], [stageMsg .index ++ " " ++ tag ++ " " ++ e.message], ws, none⟩) ∧
    (∀ obs w1 ex ix w2 e, fns.find_spots db = .ok (obs, w1) →
      fns.index db obs = .ok ((ex, ix), w2) →
      fns.refine ex ix = .error e →
      ∃ ws, process_datablock fns p tag db =
        .ok ⟨[.findSpots, .index, .refine],
          [stageMsg .refine ++ " " ++ tag ++ " " ++ e.message], ws, none⟩) ∧
    (∀ obs w1 ex ix w2 ex2 w3 e, fns.find_spots db = .ok (obs, w1) →
      fns.index db obs = .ok ((ex, ix), w2) →
      fns.refine ex ix = .ok (ex2, w3) →
      fns.integrate ex2 ix = .error e →
      ∃ ws, process_datablock fns p tag db =
        .ok ⟨[.findSpots, .index, .refine, .integrate],
          [stageMsg .integrate ++ " " ++ tag ++ " " ++ e.message], ws, none⟩) ∧
    (∀ obs w1 ex ix w2 ex2 w3 intg w4, fns.find_spots db = .ok (obs, w1) →
      fns.index db obs = .ok ((ex, ix), w2) →
      fns.refine ex ix = .ok (ex2, w3) →
      fns.integrate ex2 ix = .ok (intg, w4) →
      ∃ ws, process_datablock fns p tag db =
        .ok ⟨[.findSpots, .index, .refine, .integrate], [], ws, some intg⟩) ∧
    (∀ (items₁ items₂ : List (String × DB)) (it : String × DB),
      runBatch fns p (items₁ ++ it :: items₂) =
        runBatch fns p items₁ ++ process_datablock fns p it.1 it.2 :: runBatch fns p items₂) := by
  rcases hrp : resolvePaths p tag with ⟨p1, e2⟩
  simp only [hrp] at hres
  subst hres
  refine ⟨?_, ?_, ?_, ?_, ?_, ?_⟩
  · intro e h1
    exact ⟨_, by simp only [process_datablock, hrp, h1]; rfl⟩
  · intro obs w1 e h1 h2
    exact ⟨_, by simp only [process_datablock, hrp, h1, h2]; rfl⟩
  · intro obs w1 ex ix w2 e h1 h2 h3
    exact ⟨_, by simp only [process_datablock, hrp, h1, h2, h3]; rfl⟩
  · intro obs w1 ex ix w2 ex2 w3 e h1 h2 h3 h4
    exact ⟨_, by simp only [process_datablock, hrp, h1, h2, h3, h4]; rfl⟩
  · intro obs w1 ex ix w2 ex2 w3 intg w4 h1 h2 h3 h4
    exact ⟨_, by simp only [process_datablock, hrp, h1, h2, h3, h4]; rfl⟩
  · intro items₁ items₂ it
    simp [runBatch]

/-- Witness for `c2_stage_isolation` at a concrete input: an indexing
failure yields the single diagnostic line and no outcome. -/
theorem c2_stage_isolation_witness :
    ∃ ws, process_datablock c2fns defaultOutput ("t") (0 : Nat) =
      .ok ⟨[.findSpots, .index],
        [stageMsg .index ++ " " ++ "t" ++ " " ++ (PyErr.exc ("boom")).message], ws, none⟩ :=
  (c2_stage_isolation c2fns defaultOutput ("t") 0 (by decide)).2.1 0 []
    (.exc ("boom")) rfl rfl

/-- C3: during the variance sanity checks, a reflection with
non-positive profile-fitted intensity variance is a hard error (when
the profile column is present), a reflection with non-positive
summation intensity variance is a hard error, a reflection with
negative background variance is a hard error, and when all variances
are sane except for zero background variances, the zero-background
reflections are dropped without an error (the remaining reflections
being exactly the positive-background ones, gain-corrected). -/
theorem c3_variance_gating (gain : Rat) (t : ReflTable) :
    (t.hasPrfValue = true → (∃ r ∈ t.refls, r.prfVar ≤ 0) →
      varianceChecks gain t = .error (.invalidInput negVarMsg)) ∧
    (t.hasSumValue = true → (∃ r ∈ t.refls, r.sumVar ≤ 0) →
      varianceChecks gain t = .error (.invalidInput negVarMsg)) ∧
    (t.hasBgValue = true → (∃ r ∈ t.refls, r.bgVar < 0) →
      varianceChecks gain t = .error (.invalidInput negVarMsg)) ∧
    (t.hasPrfValue = true → t.hasSumValue = true → t.hasBgValue = true →
      (∀ r ∈ t.refls, 0 < r.prfVar) → (∀ r ∈ t.refls, 0 < r.sumVar) →
      (∀ r ∈ t.refls, 0 ≤ r.bgVar) →
      ∃ notices, varianceChecks gain t =
        .ok ({ t with refls := ((t.refls.map (sumGain gain)).filter
          (fun r => decide (0 < r.bgVar))).map (bgGain gain) }, notices)) := by
  refine ⟨?_, ?_, ?_, ?_⟩
  · intro hP hex
    obtain ⟨r, hr, hle⟩ := hex
    have hany : t.refls.any (fun r => decide (r.prfVar ≤ 0)) = true :=
      List.any_eq_true.mpr ⟨r, hr, by simpa using hle⟩
    simp [varianceChecks, hP, hany]
  · intro hS hex
    obtain ⟨r, hr, hle⟩ := hex
    have hany : t.refls.any (fun r => decide (r.sumVar ≤ 0)) = true :=
      List.any_eq_true.mpr ⟨r, hr, by simpa using hle⟩
    by_cases h1 : (t.hasPrfValue && t.refls.any (fun r => decide (r.prfVar ≤ 0))) = true
    · simp [varianceChecks, h1]
    · simp [varianceChecks, h1, hS, hany]
  · intro hB hex
    obtain ⟨r, hr, hlt⟩ := hex
    have hany : t.refls.any (fun r => decide (r.bgVar < 0)) = true :=
      List.any_eq_true.mpr ⟨r, hr, by simpa using hlt⟩
    by_cases h1 : (t.hasPrfValue && t.refls.any (fun r => decide (r.prfVar ≤ 0))) = true
    · simp [varianceChecks, h1]
    · by_cases h2 : (t.hasSumValue && t.refls.any (fun r => decide (r.sumVar ≤ 0))) = true
      · simp [varianceChecks, h1, h2]
      · by_cases hS : t.hasSumValue = true
        · have hmap : (t.refls.map (sumGain gain)).any (fun r => decide (r.bgVar < 0)) = true := by
            rw [List.any_map]
            exact hany
          simp [varianceChecks, h1, h2, hS, hB, hmap]
        · simp [varianceChecks, h1, h2, hS, hB, hany]
  · intro hP hS hB hpos1 hpos2 hpos3
    have hany1 : t.refls.any (fun r => decide (r.prfVar ≤ 0)) = false := by
      rw [List.any_eq_false]
      intro r hr hd
      exact absurd (of_decide_eq_true hd) (not_le.mpr (hpos1 r hr))
    have hany2 : t.refls.any (fun r => decide (r.sumVar ≤ 0)) = false := by
      rw [List.any_eq_false]
      intro r hr hd
      exact absurd (of_decide_eq_true hd) (not_le.mpr (hpos2 r hr))
    have hany3 : (t.refls.map (sumGain gain)).any (fun r => decide (r.bgVar < 0)) = false := by
      rw [List.any_map, List.any_eq_false]
      intro r hr hd
      exact absurd (of_decide_eq_true hd) (not_lt.mpr (hpos3 r hr))
    have hc1 : (t.hasPrfValue && t.refls.any (fun r => decide (r.prfVar ≤ 0))) = false := by
      rw [hany1, Bool.and_false]
    have hc2 : (t.hasSumValue && t.refls.any (fun r => decide (r.sumVar ≤ 0))) = false := by
      rw [hany2, Bool.and_false]
    by_cases hz :
        0 < ((t.refls.map (sumGain gain)).filter (fun r => decide (r.bgVar = 0))).length
    · exact ⟨_, by
        simp only [varianceChecks, hc1, hc2, hany1, hany2, hS, hB, hany3, hz,
          Bool.false_eq_true, if_false, if_true, Bool.and_false, Bool.true_and,
          decide_eq_true_eq, decide_True, if_pos, Bool.and_true]
        rfl⟩
    · have hfil : (t.refls.map (sumGain gain)).filter (fun r => decide (0 < r.bgVar)) =
          t.refls.map (sumGain gain) := by
        rw [List.filter_eq_self]
        intro r hr
        have hzero : ¬ r.bgVar = 0 := by
          intro h0
          exact hz (by
            have : r ∈ (t.refls.map (sumGain gain)).filter (fun r => decide (r.bgVar = 0)) :=
              List.mem_filter.mpr ⟨hr, by simpa using h0⟩
            have hne : (t.refls.map (sumGain gain)).filter (fun r => decide (r.bgVar = 0)) ≠ [] :=
              fun hnil => by rw [hnil] at this; exact absurd this (List.not_mem_nil r)
            have := List.length_pos.mpr hne
            omega)
        obtain ⟨r0, hr0, hrr⟩ := List.mem_map.mp hr
        have hge : 0 ≤ r.bgVar := by
          rw [← hrr]
          exact hpos3 r0 hr0
        simpa using lt_of_le_of_ne hge (fun h => hzero h.symm)
      exact ⟨_, by
        simp only [varianceChecks, hc1, hc2, hany1, hany2, hS, hB, hany3, hz,
          Bool.false_eq_true, if_false, if_true, Bool.and_false, Bool.true_and,
          decide_eq_true_eq, if_pos, Bool.and_true, decide_eq_false_iff_not, hfil]
        rfl⟩

/-- Witness for `c3_variance_gating` at concrete inputs: a negative
profile variance is fatal, and a zero background variance only drops
that reflection. -/
theorem c3_variance_gating_witness :
    varianceChecks 1 c3badTable = .error (.invalidInput negVarMsg) ∧
    (∃ notices, varianceChecks 1 c3zeroBgTable =
      .ok ({ c3zeroBgTable with refls := ((c3zeroBgTable.refls.map (sumGain 1)).filter
        (fun r => decide (0 < r.bgVar))).map (bgGain 1) }, notices)) :=
  ⟨(c3_variance_gating 1 c3badTable).1 rfl
      ⟨_, List.mem_cons_self _ _, by norm_num⟩,
    (c3_variance_gating 1 c3zeroBgTable).2.2.2 rfl rfl rfl
      (by intro r hr; fin_cases hr <;> norm_num)
      (by intro r hr; fin_cases hr <;> norm_num)
      (by intro r hr; fin_cases hr <;> norm_num)⟩

theorem getD_append_length {α : Type} (l : List α) (x d : α) :
    (l ++ [x]).getD l.length d = x := by
  induction l with
  | nil => rfl
  | cons a l ih => simp only [List.cons_append, List.length_cons, List.getD_cons_succ]; exact ih

theorem set_append_length {α : Type} (l : List α) (x y : α) :
    (l ++ [x]).set l.length y = l ++ [y] := by
  induction l with
  | nil => rfl
  | cons a l ih => simp [List.set, ih]

theorem readCfg_append_length (l : Heap) (x : PhilParams) :
    readCfg (l ++ [x]) l.length = x :=
  getD_append_length l x defaultPhil

theorem writeCfg_append_length (l : Heap) (x y : PhilParams) :
    writeCfg (l ++ [x]) l.length y = l ++ [y] :=
  set_append_length l x y

/-- Processing a unit whose configuration copy is the last heap cell
only rewrites that cell and appends the indexing copy: the rest of the
heap is untouched. -/
theorem processOneUnit_spec (L : Heap) (c : PhilParams) (tag : String) :
    processOneUnit tag (L ++ [c]) L.length =
      L ++ [unitParams c tag, indexParams c tag] := by
  simp only [processOneUnit]
  rw [readCfg_append_length, writeCfg_append_length, readCfg_append_length]
  simp only [allocCfg]
  rw [readCfg_append_length, writeCfg_append_length]
  simp [unitParams, indexParams, List.append_assoc]

theorem runBatchHeap_spec (master : PhilParams) :
    ∀ (tags : List String) (pre : List PhilParams),
      List.foldl
        (fun h tag =>
          let copied := allocCfg h (readCfg h 0)
          processOneUnit tag copied.1 copied.2)
        (master :: pre) tags =
      master :: pre ++
        (tags.map (fun t => [unitParams master t, indexParams master t])).flatten := by
  intro tags
  induction tags with
  | nil => intro pre; simp
  | cons t ts ih =>
    intro pre
    rw [List.foldl_cons]
    have hstep :
        (let copied := allocCfg (master :: pre) (readCfg (master :: pre) 0)
         processOneUnit t copied.1 copied.2) =
        master :: (pre ++ [unitParams master t, indexParams master t]) := by
      show processOneUnit t ((master :: pre) ++ [readCfg (master :: pre) 0])
        ((master :: pre).length) = _
      rw [show readCfg (master :: pre) 0 = master from rfl, processOneUnit_spec]
      simp
    rw [hstep, ih (pre ++ [unitParams master t, indexParams master t])]
    simp

/-- C4: every unit is processed against its own deep copy of the run
configuration.  Starting a batch from any master configuration, the
final heap is the untouched master cell followed, for each unit in
order, by that unit's own configuration copy (with the filename
templates rewritten in place) and the further copy made during indexing
(with scan-varying refinement force-disabled) — each a pure function of
the master configuration and that unit's tag alone, so no mutation made
while processing one unit is ever observable from another unit, under
any scheduling order of the unit list. -/
theorem c4_config_non_leakage (master : PhilParams) (tags : List String) :
    runBatchHeap master tags =
      master :: (tags.map (fun t => [unitParams master t, indexParams master t])).flatten ∧
    readCfg (runBatchHeap master tags) 0 = master := by
  have h := runBatchHeap_spec master tags []
  have h2 : runBatchHeap master tags =
      master :: (tags.map (fun t => [unitParams master t, indexParams master t])).flatten := by
    simpa [runBatchHeap] using h
  exact ⟨h2, by rw [h2]; rfl⟩

theorem filter_fst_map {α : Type} (c : Nat → Bool) :
    ∀ (l : List (Nat × α)),
      (l.filter (fun p => c p.1)).map Prod.fst = (l.map Prod.fst).filter c := by
  intro l
  induction l with
  | nil => rfl
  | cons a l ih =>
    by_cases h : c a.1 = true
    · simp [List.filter_cons, h, ih]
    · simp [List.filter_cons, h, ih]

/-- C5: in distributed-process mode, rank `r` processes exactly the
units at positions `i` with `(i + r) % size = 0`, and for every
position there is exactly one rank (among `0..size-1`) assigned to it:
the ranks partition the unit positions with no duplication and no
omission. -/
theorem c5_mpi_partition (rank size n : Nat) (hsize : 0 < size) :
    (∀ (α : Type) (items : List α),
      (mpiProcessed rank size items).map Prod.fst =
        mpiAssignedPositions rank size items.length) ∧
    (∀ i, i ∈ mpiAssignedPositions rank size n ↔ i < n ∧ (i + rank) % size = 0) ∧
    (∀ i, i < n → ∃! r, r < size ∧ i ∈ mpiAssignedPositions r size n) := by
  have key : ∀ i : Nat, (i + (size - i % size) % size) % size = 0 := by
    intro i
    rcases Nat.eq_zero_or_pos (i % size) with h0 | hpos
    · rw [h0, Nat.sub_zero, Nat.mod_self, Nat.add_zero]
      exact h0
    · have hlt : i % size < size := Nat.mod_lt _ hsize
      rw [Nat.mod_eq_of_lt (by omega : size - i % size < size), Nat.add_mod,
        Nat.mod_eq_of_lt (by omega : size - i % size < size),
        show i % size + (size - i % size) = size from by omega, Nat.mod_self]
  refine ⟨?_, ?_, ?_⟩
  · intro α items
    have h := filter_fst_map (fun i => (i + rank) % size == 0) items.enum
    rw [List.enum_map_fst] at h
    exact h
  · intro i
    simp [mpiAssignedPositions, List.mem_filter, List.mem_range, and_comm]
  · intro i hi
    refine ⟨(size - i % size) % size, ⟨Nat.mod_lt _ hsize, ?_⟩, ?_⟩
    · rw [mpiAssignedPositions, List.mem_filter]
      exact ⟨List.mem_range.mpr hi, by simpa using key i⟩
    · rintro y ⟨hy, hmem⟩
      rw [mpiAssignedPositions, List.mem_filter] at hmem
      have h1 : (i + y) % size = 0 := by simpa using hmem.2
      have h2 : (i + (size - i % size) % size) % size = 0 := key i
      have hmod : y % size = (size - i % size) % size % size :=
        Nat.ModEq.add_left_cancel' i (h1.trans h2.symm)
      rwa [Nat.mod_eq_of_lt hy, Nat.mod_eq_of_lt (Nat.mod_lt _ hsize)] at hmod

/-- Witness for `c5_mpi_partition` at a concrete input. -/
theorem c5_mpi_partition_witness :
    (2 ∈ mpiAssignedPositions 1 3 5 ↔ 2 < 5 ∧ (2 + 1) % 3 = 0) ∧
    (∃! r, r < 3 ∧ 2 ∈ mpiAssignedPositions r 3 5) :=
  ⟨(c5_mpi_partition 1 3 5 (by decide)).2.1 2,
   (c5_mpi_partition 1 3 5 (by decide)).2.2 2 (by decide)⟩

/-- C6 is refuted at an explicit input: the reference set holds an
observation with a negative experiment id, yet `process_reference`
succeeds, because the negative-id check runs only after unindexed
observations (and those with miller index (0,0,0)) have been dropped —
the offending observation is discarded as rubbish instead of raising
the invalid-input error. -/
theorem c6_counterexample :
    (∃ o ∈ c6refTable.obs, o.id < 0) ∧
    process_reference (some c6refTable) = .ok (some c6cleanTable, some c6rubbish) := by
  constructor
  · exact ⟨_, List.mem_cons_of_mem _ (List.mem_cons_self _ _), by decide⟩
  · rfl

/-- Reduction of `processReferenceTable` once the field assertions and
the emptiness check pass. -/
theorem processReferenceTable_eq (t : RefTable) (hM : t.hasMillerIndex = true)
    (hI : t.hasId = true)
    (hlenne : ¬ (t.obs.filter (fun o => o.flagIndexed)).length = 0) :
    processReferenceTable t =
      (if 0 < ((cleanedObs t).filter (fun o => decide (o.id < 0))).length then
        Except.error (.invalidInput (invalidIdMsg
          ((cleanedObs t).filter (fun o => decide (o.id < 0))).length))
      else Except.ok ({ t with obs := cleanedObs t }, rubbishObs t)) := by
  simp only [processReferenceTable, hM, hI, Bool.not_true, Bool.false_eq_true,
    if_false]
  rw [if_neg hlenne]
  rfl

/-- C6 (amended): the hygiene step requires the `miller_index` and
experiment-id fields (a missing one is an assertion failure), drops
observations not flagged indexed and observations with miller index
(0,0,0), and if any observation *surviving those two filters* carries a
negative experiment id, processing fails with the distinct
invalid-input error; otherwise it succeeds with exactly the filtered
observations (the dropped ones returned as rubbish).  A negative id on
an observation that the filters discard does not abort the unit. -/
theorem c6_amended_reference_hygiene (t : RefTable) :
    (t.hasMillerIndex = false → process_reference (some t) = .error .assertionFailed) ∧
    (t.hasMillerIndex = true → t.hasId = false →
      process_reference (some t) = .error .assertionFailed) ∧
    (t.hasMillerIndex = true → t.hasId = true →
      (∃ o ∈ cleanedObs t, o.id < 0) →
      ∃ n, 0 < n ∧ process_reference (some t) = .error (.invalidInput (invalidIdMsg n))) ∧
    (t.hasMillerIndex = true → t.hasId = true →
      (∃ o ∈ t.obs, o.flagIndexed = true) →
      (∀ o ∈ cleanedObs t, 0 ≤ o.id) →
      process_reference (some t) =
        .ok (some { t with obs := cleanedObs t }, some (rubbishObs t))) := by
  refine ⟨?_, ?_, ?_, ?_⟩
  · intro hM
    simp [process_reference, processReferenceTable, hM]
  · intro hM hI
    simp [process_reference, processReferenceTable, hM, hI]
  · intro hM hI hex
    obtain ⟨o, ho, hid⟩ := hex
    have hmem1 : o ∈ t.obs.filter (fun o => o.flagIndexed) :=
      (List.mem_filter.mp ho).1
    have hlenne : ¬ (t.obs.filter (fun o => o.flagIndexed)).length = 0 := by
      rw [List.length_eq_zero]
      intro hnil
      rw [hnil] at hmem1
      exact absurd hmem1 (List.not_mem_nil o)
    have hbadmem : o ∈ (cleanedObs t).filter (fun o => decide (o.id < 0)) :=
      List.mem_filter.mpr ⟨ho, by simpa using hid⟩
    have hbadpos : 0 < ((cleanedObs t).filter (fun o => decide (o.id < 0))).length :=
      List.length_pos.mpr (fun hnil => by
        rw [hnil] at hbadmem
        exact absurd hbadmem (List.not_mem_nil o))
    refine ⟨_, hbadpos, ?_⟩
    have heq := processReferenceTable_eq t hM hI hlenne
    rw [if_pos hbadpos] at heq
    simp only [process_reference, heq]
  · intro hM hI hex hpos
    obtain ⟨o, ho, hoidx⟩ := hex
    have hmem1 : o ∈ t.obs.filter (fun o => o.flagIndexed) :=
      List.mem_filter.mpr ⟨ho, hoidx⟩
    have hlenne : ¬ (t.obs.filter (fun o => o.flagIndexed)).length = 0 := by
      rw [List.length_eq_zero]
      intro hnil
      rw [hnil] at hmem1
      exact absurd hmem1 (List.not_mem_nil o)
    have hbad0 : ¬ 0 < ((cleanedObs t).filter (fun o => decide (o.id < 0))).length := by
      have hfilnil : (cleanedObs t).filter (fun o => decide (o.id < 0)) = [] := by
        rw [List.filter_eq_nil_iff]
        intro a ha hd
        exact absurd (of_decide_eq_true hd) (not_lt.mpr (hpos a ha))
      rw [hfilnil]
      simp
    have heq := processReferenceTable_eq t hM hI hlenne
    rw [if_neg hbad0] at heq
    simp only [process_reference, heq]

/-- Witness for `c6_amended_reference_hygiene` at concrete inputs: an
indexed observation with a negative id is fatal, and a missing
miller-index field is an assertion failure. -/
theorem c6_amended_reference_hygiene_witness :
    (∃ n, 0 < n ∧ process_reference (some c6badIdTable) =
      .error (.invalidInput (invalidIdMsg n))) ∧
    process_reference (some c6noMillerTable) = .error .assertionFailed :=
  ⟨(c6_amended_reference_hygiene c6badIdTable).2.2.1 rfl rfl
      ⟨{ flagIndexed := true, miller_index := (1, 1, 1), id := -2 }, by decide, by decide⟩,
    (c6_amended_reference_hygiene c6noMillerTable).1 rfl⟩

/-- C7: the spot-finding stage normalizes the degenerate z-dimension
before returning: whatever raw observations the detector produces, the
returned set is exactly the raw set with every centroid z-coordinate
reset to 0 and every bounding box z-extent collapsed to `[0, 1)`, so
every returned observation has z-centroid 0 and z-extent `[0, 1)`
regardless of the raw z values. -/
theorem c7_z_normalization {DB : Type} (strong_filename : Option String)
    (fromObservations : DB → Except PyErr (List SpotObs)) (datablock : DB) :
    (∀ raw, fromObservations datablock = .ok raw →
      ∃ ws, find_spots strong_filename fromObservations datablock = .ok (raw.map resetZ, ws)) ∧
    (∀ obs ws, find_spots strong_filename fromObservations datablock = .ok (obs, ws) →
      ∀ o ∈ obs, o.z = 0 ∧ o.b4 = 0 ∧ o.b5 = 1) := by
  constructor
  · intro raw h
    exact ⟨_, by simp only [find_spots, h]; rfl⟩
  · intro obs ws h
    rcases hf : fromObservations datablock with e | raw
    · rw [find_spots, hf] at h
      cases h
    · rw [find_spots, hf] at h
      simp only [Except.ok.injEq, Prod.mk.injEq] at h
      obtain ⟨h1, _⟩ := h
      intro o ho
      rw [← h1] at ho
      obtain ⟨o0, _, rfl⟩ := List.mem_map.mp ho
      simp [resetZ]

/-- Witness for `c7_z_normalization` at a concrete input. -/
theorem c7_z_normalization_witness :
    ∃ ws, find_spots (some ("%s_strong.pickle")) (fun _ : Nat => .ok [c7raw]) 0 =
      .ok ([c7raw].map resetZ, ws) :=
  (c7_z_normalization (some ("%s_strong.pickle")) (fun _ : Nat => .ok [c7raw]) 0).1
    [c7raw] rfl

/-- C8: the refinement stage is a pass-through for stills: it returns
the experiment models unchanged for every input, performs no
minimization, and its only effect is the write of the
refined-experiments file, which is skipped when that output is not
configured. -/
theorem c8_refine_passthrough {Expt Idx : Type}
    (refined_experiments_filename : Option String)
    (experiments : Expt) (centroids : Idx) :
    (StillsProcess.refine refined_experiments_filename experiments centroids).1 =
      experiments ∧
    (refined_experiments_filename = none →
      (StillsProcess.refine refined_experiments_filename experiments centroids).2 = []) ∧
    (∀ f, refined_experiments_filename = some f → ¬ f = "" →
      (StillsProcess.refine refined_experiments_filename experiments centroids).2 = [f]) := by
  refine ⟨rfl, ?_, ?_⟩
  · intro h
    simp [StillsProcess.refine, h, truthy]
  · intro f h hne
    simp [StillsProcess.refine, h, truthy, hne]

/-- Witness for `c8_refine_passthrough` at concrete inputs. -/
theorem c8_refine_passthrough_witness :
    (StillsProcess.refine (none : Option String) (7 : Nat) (5 : Nat)).2 = [] ∧
    (StillsProcess.refine (some ("out.json")) (7 : Nat) (5 : Nat)).2 = ["out.json"] :=
  ⟨(c8_refine_passthrough none 7 5).2.1 rfl,
   (c8_refine_passthrough (some ("out.json")) 7 5).2.2 ("out.json") rfl (by decide)⟩

/-- C9 fails on the code: setting `refined_experiments_filename` (or
`integrated_filename`) to `None` does not skip that artifact — the
unguarded membership test `"%s" in None` raises a `TypeError` during
path resolution, before any stage runs, and this error is raised
outside the per-stage `try` blocks, so the whole per-unit call fails
rather than processing normally. -/
theorem c9_template_none_type_error :
    (resolvePaths c9params ("x")).2 = some typeErrorMsg ∧
    (resolvePaths c9paramsInt ("x")).2 = some typeErrorMsg ∧
    ∀ {DB Obs Expt Idx Intg : Type} (fns : StageFns DB Obs Expt Idx Intg) (db : DB),
      process_datablock fns c9params ("x") db = .error (.typeError typeErrorMsg) := by
  refine ⟨rfl, rfl, ?_⟩
  intro DB Obs Expt Idx Intg fns db
  rfl

/-- C10: if, after removing the observations not flagged indexed, the
reference set passed to integration is empty, integration fails with
the distinct invalid-input error rather than proceeding with zero
reflections. -/
theorem c10_empty_reference_fatal {Expt : Type} (params : PhilParams) (tag : String)
    (numExperiments : Expt → Nat) (runIntegration : Expt → RefTable → ReflTable)
    (experiments : Expt) (indexed : RefTable)
    (hM : indexed.hasMillerIndex = true) (hI : indexed.hasId = true)
    (hempty : indexed.obs.filter (fun o => o.flagIndexed) = []) :
    integrate params tag numExperiments runIntegration experiments indexed =
      .error (.invalidInput emptyRefMsg) := by
  have hlen : (indexed.obs.filter (fun o => o.flagIndexed)).length = 0 := by
    rw [hempty]
    rfl
  simp [integrate, process_reference, processReferenceTable, hM, hI, hlen]

/-- Witness for `c10_empty_reference_fatal` at a concrete input. -/
theorem c10_empty_reference_fatal_witness :
    integrate defaultPhil ("t") (fun _ : Nat => 1)
      (fun _ _ => ⟨true, true, true, true, []⟩) 0 c10table =
      .error (.invalidInput emptyRefMsg) :=
  c10_empty_reference_fatal defaultPhil ("t") (fun _ : Nat => 1)
    (fun _ _ => ⟨true, true, true, true, []⟩) 0 c10table rfl rfl (by decide)

end StillsProcess
